import Mathlib

set_option maxRecDepth 100000

/-!
# Verification of the mity-rs mitochondrial variant-calling pipeline

Shallow embedding of the Rust sources (`src/mity-rs/src/call.rs`,
`src/mity-rs/src/mity_util.rs`, `src/src/normalise.rs`) together with
theorems settling the specification claims.

Modelling conventions:
* Rust `String` becomes Lean `String`; `Vec<T>` becomes `List T`.
* Filesystem and process side effects are abstracted into explicit
  capability functions (file existence, file contents, header contents,
  process execution returning an exit code), passed as parameters.
* An external command execution is `String → Option Nat`: `none` means the
  process could not be spawned (Rust `output()?` / `status()?` error) and
  `some code` is the exit status; `success()` is `code = 0`.
* Rust panics (out-of-bounds indexing such as `self.files[0]` on an empty
  vector) are modelled by an explicit `panic` outcome.
* `f32`/`f64` thresholds appearing only as interpolated text in shell
  command strings are carried in their rendered decimal form; quantities
  the filtering rules compare are modelled as rationals.
-/

/-- Join strings with a separator, as Rust `Vec::join` / `.join(", ")`. -/
def joinSep (sep : String) : List String → String
  | [] => ""
  | [x] => x
  | x :: xs => x ++ sep ++ joinSep sep (xs)

/-- One line accumulated in reverse character order, with a trailing
carriage return stripped — the per-line treatment of Rust `str::lines`. -/
def mkLine (acc : List Char) : String :=
  ⟨(if acc.head? = some (Char.ofNat 13) then acc.tail else acc).reverse⟩

/-- Worker for `rustLines`: walk the characters, emitting a line at each
newline; a final fragment is a line only if nonempty. -/
def rustLinesAux : List Char → List Char → List String
  | [], acc => if acc = [] then [] else [mkLine acc]
  | c :: cs, acc =>
    if c = Char.ofNat 10 then mkLine acc :: rustLinesAux cs []
    else rustLinesAux cs (c :: acc)

/-- Rust `str::lines`: split on newlines, strip one trailing carriage
return per line, no empty final line for a trailing newline, and the empty
string yields no lines at all. -/
def rustLines (s : String) : List String :=
  rustLinesAux s.toList []

/-- Worker for `rustReplace` on character lists: replace each leftmost,
non-overlapping occurrence of `pat`; the fuel bounds the number of
characters still to be consumed (each step consumes at least one), making
the recursion structural. -/
def replaceFuel (pat rep : List Char) : Nat → List Char → List Char
  | 0, l => l
  | _ + 1, [] => []
  | fuel + 1, c :: cs =>
    if pat.isPrefixOf (c :: cs) then
      rep ++ replaceFuel pat rep fuel (cs.drop (pat.length - 1))
    else
      c :: replaceFuel pat rep fuel cs

/-- Rust `str::replace` for a nonempty pattern: replace every leftmost,
non-overlapping occurrence of `pat` by `rep`. -/
def rustReplace (s pat rep : String) : String :=
  ⟨replaceFuel pat.toList rep.toList s.toList.length s.toList⟩

/-- Rust `{:?}` debug formatting of a vector of strings, e.g.
`["MT", "chrM"]`. -/
def rustDebugList (xs : List String) : String :=
  "[" ++ joinSep ", " (xs.map (fun s => "\"" ++ s ++ "\"")) ++ "]"

/-- The mitochondrial-contig name test of `bam_get_mt_contig` and
`vcf_get_mt_contig`: exact match against `"MT"` or `"chrM"`. -/
def isMitoName (s : String) : Bool :=
  s == "MT" || s == "chrM"

/-- The fixed error message of `Call::bam_get_mt_contig`
(`src/mity-rs/src/call.rs`), used for the zero-candidate case, the
many-candidate case, and the unreachable lookup-miss case alike. -/
def bamMtError : String :=
  "Mitochondrial contig not found or multiple mitochondrial contigs found."

/-- `Call::bam_get_mt_contig` (`src/mity-rs/src/call.rs`): the header is
the list of declared reference sequences as (name, length) pairs, in
declaration order.  Collect the names, filter to mitochondrial names,
require exactly one, look the name up in the header again for its length,
and render `"<name>:1-<length>"`. -/
def bam_get_mt_contig (header : List (String × Nat)) : Except String String :=
  let chroms := header.map Prod.fst
  let mito := chroms.filter isMitoName
  if mito.length ≠ 1 then .error bamMtError
  else
    match header.find? (fun seq => seq.1 == mito.headD "") with
    | some seq => .ok (seq.1 ++ ":1-" ++ toString seq.2)
    | none => .error bamMtError

/-- The error message of `vcf_get_mt_contig`
(`src/mity-rs/src/mity_util.rs`), which interpolates the candidate list
via `{:?}`. -/
def vcfMtError (mito : List String) : String :=
  "Expected exactly one mitochondrial contig, found: " ++ rustDebugList mito

/-- `vcf_get_mt_contig` (`src/mity-rs/src/mity_util.rs`): contigs are
(name, declared length) pairs in header order; lengths are optional in a
VCF header and default to 0 via `unwrap_or(0)`.  Requires exactly one
mitochondrial contig name and returns the (name, length) pair. -/
def vcf_get_mt_contig (contigs : List (String × Option Nat)) :
    Except String (String × Nat) :=
  let mito := (contigs.map Prod.fst).filter isMitoName
  if mito.length ≠ 1 then .error (vcfMtError mito)
  else
    match contigs.find? (fun p => p.1 == mito.headD "") with
    | some p => .ok (mito.headD "", p.2.getD 0)
    | none => .ok (mito.headD "", 0)

lemma isMitoName_of_filter_singleton {l : List (String × α)} {nm : String}
    {v : α} (h : l.filter (fun p => isMitoName p.1) = [(nm, v)]) :
    isMitoName nm = true := by
  have hmem : (nm, v) ∈ l.filter (fun p => isMitoName p.1) := by
    rw [h]; exact List.mem_singleton_self _
  exact (List.mem_filter.mp hmem).2

lemma find_of_filter_singleton {l : List (String × α)} {nm : String} {v : α}
    (h : l.filter (fun p => isMitoName p.1) = [(nm, v)]) :
    l.find? (fun p => p.1 == nm) = some (nm, v) := by
  have hnm : isMitoName nm = true := isMitoName_of_filter_singleton h
  induction l with
  | nil => simp at h
  | cons a t ih =>
    rw [List.filter_cons] at h
    by_cases ha : isMitoName a.1 = true
    · rw [if_pos (by simpa using ha)] at h
      obtain ⟨h1, h2⟩ := List.cons_eq_cons.mp h
      subst h1
      exact List.find?_cons_of_pos (p := fun q : String × α => q.1 == nm)
        t (by simp)
    · rw [if_neg (by simpa using ha)] at h
      have hne : ¬ ((fun q : String × α => q.1 == nm) a = true) := by
        intro hcontra
        exact ha (eq_of_beq hcontra ▸ hnm)
      rw [List.find?_cons_of_neg (p := fun q : String × α => q.1 == nm) t hne]
      exact ih h

lemma chroms_filter_of_filter_singleton {l : List (String × α)} {nm : String}
    {v : α} (h : l.filter (fun p => isMitoName p.1) = [(nm, v)]) :
    (l.map Prod.fst).filter isMitoName = [nm] := by
  have : (l.map Prod.fst).filter isMitoName
      = (l.filter (fun p => isMitoName p.1)).map Prod.fst := by
    rw [List.filter_map]
    rfl
  rw [this, h]
  rfl

/-- **C5** For every header declaring exactly one sequence named exactly
`"MT"` or exactly `"chrM"` with declared length `L`, contig resolution
succeeds: `Call::bam_get_mt_contig` returns the 1-based region
`"<name>:1-<L>"`, and `vcf_get_mt_contig` on the corresponding VCF header
(same sequences, declared lengths) returns the pair `(name, L)`. -/
theorem mt_contig_resolution_unique_success
    (header : List (String × Nat)) (nm : String) (L : Nat)
    (h : header.filter (fun p => isMitoName p.1) = [(nm, L)]) :
    bam_get_mt_contig header = .ok (nm ++ ":1-" ++ toString L) ∧
    vcf_get_mt_contig (header.map (fun p => (p.1, some p.2)))
      = .ok (nm, L) := by
  have hch : (header.map Prod.fst).filter isMitoName = [nm] :=
    chroms_filter_of_filter_singleton h
  have hfind : header.find? (fun p => p.1 == nm) = some (nm, L) :=
    find_of_filter_singleton h
  constructor
  · rw [bam_get_mt_contig]
    simp only [hch, List.length_cons, List.length_nil, List.headD_cons]
    rw [if_neg (by decide)]
    rw [hfind]
  · rw [vcf_get_mt_contig]
    have hmapfst : (header.map (fun p => (p.1, some p.2))).map Prod.fst
        = header.map Prod.fst := by
      simp [List.map_map]
    have hfind2 : (header.map (fun p => (p.1, some p.2))).find?
        (fun p => p.1 == nm) = some (nm, some L) := by
      rw [List.find?_map]
      have : ((fun p : String × Option Nat => p.1 == nm) ∘
          (fun p : String × Nat => (p.1, some p.2)))
          = (fun p : String × Nat => p.1 == nm) := rfl
      rw [this, hfind]
      rfl
    simp only [hmapfst, hch, List.length_cons, List.length_nil,
      List.headD_cons]
    rw [if_neg (by decide)]
    rw [hfind2]
    rfl

/-- **C5 witness**: a two-sequence header whose only mitochondrial
sequence is `("MT", 16569)` resolves to `"MT:1-16569"` and `(MT, 16569)`. -/
theorem mt_contig_resolution_unique_success_witness :
    bam_get_mt_contig [("chr1", 248956422), ("MT", 16569)]
      = .ok ("MT" ++ ":1-" ++ toString 16569) ∧
    vcf_get_mt_contig ([("chr1", 248956422), ("MT", 16569)].map
      (fun p => (p.1, some p.2))) = .ok ("MT", 16569) :=
  mt_contig_resolution_unique_success
    [("chr1", 248956422), ("MT", 16569)] "MT" 16569 (by decide)

/-- **C6 counterexample**: the error `Call::bam_get_mt_contig` produces
for a header declaring both `"MT"` and `"chrM"` is the fixed message
`bamMtError`, which contains neither candidate name — so the claim that
the error names the candidate contigs found is false on the BAM path. -/
theorem mt_contig_failure_naming_counterexample :
    bam_get_mt_contig [("MT", 16569), ("chrM", 16569)]
      = .error bamMtError ∧
    ¬ ("MT".toList <:+: bamMtError.toList) ∧
    ¬ ("chrM".toList <:+: bamMtError.toList) :=
  ⟨by rfl, by decide, by decide⟩

/-- **C6 (amended)** For every header declaring zero, or two or more,
sequences named `"MT"` or `"chrM"`, contig resolution fails
deterministically; `vcf_get_mt_contig`'s error names the candidates found
(possibly none), while `Call::bam_get_mt_contig`'s error is a fixed
message naming no candidates. -/
theorem mt_contig_resolution_failure
    (bh : List (String × Nat)) (vh : List (String × Option Nat))
    (h1 : ((bh.map Prod.fst).filter isMitoName).length ≠ 1)
    (h2 : ((vh.map Prod.fst).filter isMitoName).length ≠ 1) :
    bam_get_mt_contig bh = .error bamMtError ∧
    vcf_get_mt_contig vh
      = .error (vcfMtError ((vh.map Prod.fst).filter isMitoName)) := by
  constructor
  · simp only [bam_get_mt_contig]
    rw [if_pos h1]
  · simp only [vcf_get_mt_contig]
    rw [if_pos h2]

/-- **C6 witness**: a header with no mitochondrial sequence and a VCF
header with the two candidates `MT` and `chrM` both fail, the latter
reporting both candidates. -/
theorem mt_contig_resolution_failure_witness :
    (((([("chr1", 5)] : List (String × Nat)).map Prod.fst).filter
        isMitoName).length ≠ 1) ∧
    bam_get_mt_contig [("chr1", 5)] = .error bamMtError ∧
    vcf_get_mt_contig [("MT", some 16569), ("chrM", none)]
      = .error (vcfMtError ((([("MT", some 16569), ("chrM", none)] :
          List (String × Option Nat)).map Prod.fst).filter isMitoName)) :=
  ⟨by decide,
    (mt_contig_resolution_failure [("chr1", 5)]
      [("MT", some 16569), ("chrM", none)] (by decide) (by decide)).1,
    (mt_contig_resolution_failure [("chr1", 5)]
      [("MT", some 16569), ("chrM", none)] (by decide) (by decide)).2⟩

/-- `Call::set_strings` (`src/mity-rs/src/call.rs`): the per-file
alignment arguments of the external-caller invocation.  The Rust code is
`self.files.iter().rev().map(|file| format!("-b {}", file)).collect()`. -/
def fileArgs (files : List String) : List String :=
  files.reverse.map (fun file => "-b " ++ file)

/-- `Call::set_strings`: `file_string` is the `-b` arguments joined with
single spaces (`.join(" ")`), interpolated verbatim into the freebayes
command by `Call::run_freebayes`. -/
def file_string (files : List String) : String :=
  joinSep " " (fileArgs files)

/-- **C1 counterexample**: for the supplied order `[f1, f2]` the `-b`
arguments are `["-b f2", "-b f1"]`, not the order-preserving
`["-b f1", "-b f2"]` — the supplied order is reversed. -/
theorem call_file_args_order_counterexample :
    fileArgs ["f1", "f2"] = ["-b f2", "-b f1"] ∧
    fileArgs ["f1", "f2"] ≠ ["f1", "f2"].map (fun file => "-b " ++ file) := by
  decide

/-- **C1 (amended)** The per-file `-b` arguments built by
`Call::set_strings` list the supplied alignment files in reverse order:
the `i`-th argument names the `(n-1-i)`-th supplied file. -/
theorem call_file_args_reversed (files : List String) (i : Nat)
    (h : i < files.length) :
    (fileArgs files).getD i "" = "-b " ++ files.getD (files.length - 1 - i) "" := by
  have hlt : files.length - 1 - i < files.length := by omega
  rw [fileArgs, List.getD_eq_getElem?_getD, List.getElem?_map,
    List.getElem?_reverse h, List.getElem?_eq_getElem hlt,
    List.getD_eq_getElem?_getD, List.getElem?_eq_getElem hlt]
  rfl

/-- **C1 witness**: with files `[f1, f2]`, the first `-b` argument names
`f2` (the last supplied file). -/
theorem call_file_args_reversed_witness :
    0 < (["f1", "f2"] : List String).length ∧
    (fileArgs ["f1", "f2"]).getD 0 ""
      = "-b " ++ (["f1", "f2"] : List String).getD
          ((["f1", "f2"] : List String).length - 1 - 0) "" :=
  ⟨by decide, call_file_args_reversed ["f1", "f2"] 0 (by decide)⟩

/-- The error taxonomy of the `Call` pipeline in `src/mity-rs/src/call.rs`
and `src/mity-rs/src/mity_util.rs`.  In Rust each error is a formatted
string; each constructor here carries exactly the data interpolated into
the corresponding message (see `CallError.render`). -/
inductive CallError where
  | bamListExpectsOne
  | ioError
  | pfxRequired
  | genomeRequired
  | missingFile (f : String)
  | missingRG (fs : List String)
  | mtContig (msg : String)
  | freebayesFailed (code : Nat)
  | tabixSpawnFailed
deriving DecidableEq

/-- The Rust message rendered for each `CallError` (the `format!` strings
of the source; `ioError` stands for a propagated I/O error whose message
comes from the operating system). -/
def CallError.render : CallError → String
  | .bamListExpectsOne =>
      "--bam-file-list argument expects only 1 file to be provided."
  | .ioError => "I/O error"
  | .pfxRequired =>
      "If there is more than one BAM/CRAM file, --prefix must be set"
  | .genomeRequired =>
      "A genome file should be supplied if mity call normalize=True"
  | .missingFile f => "Missing file: " ++ f
  | .missingRG fs =>
      "The BAM/CRAM files: " ++ joinSep ", " fs ++ " lack an @RG header"
  | .mtContig msg => msg
  | .freebayesFailed code =>
      "FreeBayes failed with code Some(" ++ toString code ++ ")"
  | .tabixSpawnFailed => "Failed to run tabix command"

/-- The alignment files a `CallError` names in its rendered message. -/
def CallError.namedFiles : CallError → List String
  | .missingFile f => [f]
  | .missingRG fs => fs
  | _ => []

/-- The `Call` struct of `src/mity-rs/src/call.rs`.  The Rust field
`prefix` is modelled as `pfx` (its Rust name collides with reserved Lean
syntax); the `f32` fields `min_af` and `p` are carried in their rendered
decimal form since the program only ever interpolates them into command
text. -/
structure Call where
  debug : Bool
  files : List String
  reference : String
  genome : Option String
  pfx : Option String
  min_mq : Nat
  min_bq : Nat
  min_af : String
  min_ac : Nat
  p : String
  normalise : Bool
  output_dir : String
  region : Option String
  bam_list : Bool
  keep : Bool
  file_string : String
  normalised_vcf_path : String
  call_vcf_path : String
  mity_cmd : String
  sed_cmd : String
deriving DecidableEq

/-- `Call::new`: optional thresholds default to `MIN_MQ = 30`,
`MIN_BQ = 24`, `MIN_AF = 0.01`, `MIN_AC = 4`, `P_VAL = 0.002`; the
internal fields start empty. -/
def Call.new (debug : Bool) (files : List String) (reference : String)
    (genome : Option String) (pfx : Option String) (min_mq : Option Nat)
    (min_bq : Option Nat) (min_af : Option String) (min_ac : Option Nat)
    (p : Option String) (normalise : Bool) (output_dir : String)
    (region : Option String) (bam_list : Bool) (keep : Bool) : Call :=
  { debug := debug, files := files, reference := reference,
    genome := genome, pfx := pfx,
    min_mq := min_mq.getD 30, min_bq := min_bq.getD 24,
    min_af := min_af.getD "0.01", min_ac := min_ac.getD 4,
    p := p.getD "0.002", normalise := normalise, output_dir := output_dir,
    region := region, bam_list := bam_list, keep := keep,
    file_string := "", normalised_vcf_path := "", call_vcf_path := "",
    mity_cmd := "", sed_cmd := "" }

/-- `Call::run_checks`: prefix requirement, genome requirement, a loop
over the files that returns on the FIRST file that does not exist, and an
aggregated read-group check over all files.  `pathExists` abstracts
`Path::new(file).exists()`, `hasRG` abstracts
`self.bam_has_rg(file).is_ok()` (reader construction and read-group
presence combined, as the caller only tests `is_err()`). -/
def run_checks (pathExists hasRG : String → Bool) (c : Call) :
    Except CallError Unit :=
  if 1 < c.files.length ∧ c.pfx = none then .error .pfxRequired
  else if c.normalise = true ∧ c.genome = none then .error .genomeRequired
  else
    match c.files.find? (fun file => !pathExists file) with
    | some file => .error (.missingFile file)
    | none =>
      let invalid_files := c.files.filter (fun file => !hasRG file)
      if invalid_files.length ≠ 0 then .error (.missingRG invalid_files)
      else .ok ()

/-- `Path::file_stem` on a file name (no directory part): everything
before the final dot, except that a lone leading dot does not count as a
separator. -/
def stemOfName (name : List Char) : List Char :=
  if (name.drop 1).contains (Char.ofNat 46) then
    name.take (name.length - 1 - (name.reverse.indexOf (Char.ofNat 46)))
  else name

/-- `Call::make_prefix`: `Path::new(file_name).file_stem()`, defaulting to
the empty string. -/
def make_pfx (file_name : String) : String :=
  ⟨stemOfName ((file_name.splitOn "/").getLastD "").toList⟩

/-- `Call::set_strings`: default the prefix from the first file — the
Rust code indexes `self.files[0]`, which panics (`none` here) when the
expanded file list is empty — then build `file_string` and the two
derived output paths
`<output_dir>/<prefix>.mity.normalise.vcf.gz` and
`<output_dir>/<prefix>.mity.call.vcf.gz`. -/
def set_strings (c : Call) : Option Call :=
  match (match c.pfx with
         | some pr => some pr
         | none => (c.files[0]?).map make_pfx) with
  | none => none
  | some pr =>
    some { c with
      pfx := some pr,
      file_string := file_string c.files,
      normalised_vcf_path :=
        c.output_dir ++ "/" ++ pr ++ ".mity.normalise.vcf.gz",
      call_vcf_path :=
        c.output_dir ++ "/" ++ pr ++ ".mity.call.vcf.gz" }

/-- `Call::set_mity_cmd`: the replacement header line and the sed command
that injects it over `##phasing=none`. -/
def set_mity_cmd (c : Call) : Call :=
  let mity_cmd := "##mityCommandline=\"mity call --reference "
    ++ c.reference ++ " --prefix " ++ (c.pfx.getD "") ++ " ...\""
  { c with
    mity_cmd := mity_cmd,
    sed_cmd := "sed \x27s/^##phasing=none/" ++ mity_cmd ++ "/g\x27" }

/-- The single shell command `Call::run_freebayes` assembles: freebayes,
two header-rewriting seds, the mity sed, and bgzip, joined into one
pipeline under `set -o pipefail`. -/
def freebayes_cmd (c : Call) : String :=
  "set -o pipefail && freebayes -f " ++ c.reference ++ " " ++ c.file_string
    ++ " --min-mapping-quality " ++ toString c.min_mq
    ++ " --min-base-quality " ++ toString c.min_bq
    ++ " --min-alternate-fraction " ++ c.min_af
    ++ " --min-alternate-count " ++ toString c.min_ac
    ++ " --ploidy 2 --region " ++ c.region.getD ""
    ++ " | sed \x27s/##source/##freebayesSource/\x27 | sed \x27s/##commandline/##freebayesCommandline/\x27 | "
    ++ c.sed_cmd ++ " | bgzip > " ++ c.call_vcf_path

/-- `Call::run_freebayes`: the whole multi-stage pipeline is ONE
`/bin/bash -c` invocation; a single combined exit status is produced and
checked once (`output.status.success()`), failing with the FreeBayes
error message on a non-zero combined status. -/
def run_freebayes (exec : String → Option Nat) (c : Call) :
    Except CallError Unit :=
  match exec (freebayes_cmd c) with
  | none => .error .ioError
  | some code => if code = 0 then .ok () else .error (.freebayesFailed code)

/-- The indexing command of `tabix` in `src/mity-rs/src/mity_util.rs`. -/
def tabix_cmd (file : String) : String := "tabix -f " ++ file

/-- `tabix` (`src/mity-rs/src/mity_util.rs`): runs `tabix -f <file>` via
`sh -c` and calls `.status()`, which only errors when the process cannot
be spawned; the exit status VALUE is discarded, so any exit code —
including a non-zero one — yields `Ok(())`. -/
def tabix (exec : String → Option Nat) (file : String) :
    Except CallError Unit :=
  match exec (tabix_cmd file) with
  | none => .error .tabixSpawnFailed
  | some _ => .ok ()

/-- Result of a pipeline step: normal result, error return, or Rust panic
(for the out-of-bounds `self.files[0]` indexing). -/
inductive Outcome (α : Type) where
  | ok : α → Outcome α
  | err : CallError → Outcome α
  | panicked : Outcome α
deriving DecidableEq

/-- `Call::get_files_from_list`: with more than one supplied path, error;
otherwise read `self.files[0]` (panicking on an empty vector) and replace
the file list by the lines of the list file. -/
def get_files_from_list (readToString : String → Option String)
    (c : Call) : Outcome Call :=
  if 1 < c.files.length then .err .bamListExpectsOne
  else
    match c.files[0]? with
    | none => .panicked
    | some f =>
      match readToString f with
      | none => .err .ioError
      | some content => .ok { c with files := rustLines content }

/-- `Call::bam_get_mt_contig` including the reader construction:
`bamHeader` abstracts opening the BAM file and reading its header
(`none` = builder error propagated by `?`). -/
def bam_get_mt_contig_env
    (bamHeader : String → Option (List (String × Nat)))
    (file : String) : Outcome String :=
  match bamHeader file with
  | none => .err .ioError
  | some header =>
    match bam_get_mt_contig header with
    | .ok region => .ok region
    | .error msg => .err (.mtContig msg)

/-- `Call::set_region`: when no explicit region was supplied, derive it
from `self.files[0]` — an out-of-bounds panic when the file list is
empty. -/
def set_region (bamHeader : String → Option (List (String × Nat)))
    (c : Call) : Outcome Call :=
  match c.region with
  | some _ => .ok c
  | none =>
    match c.files[0]? with
    | none => .panicked
    | some f =>
      match bam_get_mt_contig_env bamHeader f with
      | .ok region => .ok { c with region := some region }
      | .err e => .err e
      | .panicked => .panicked

/-- The capabilities `Call::run` consumes: list-file reading,
`Path::exists`, the read-group check, BAM header reading, and external
command execution. -/
structure CallEnv where
  readToString : String → Option String
  pathExists : String → Bool
  hasRG : String → Bool
  bamHeader : String → Option (List (String × Nat))
  exec : String → Option Nat

/-- `Call::run` (`src/mity-rs/src/call.rs`), logger initialisation left
out: optional list expansion, `run_checks`, `set_strings`, `set_region`,
`set_mity_cmd`, `run_freebayes`, then either `run_normalise` — a stub in
the source that logs "Not implemented yet!" and returns `Ok` — or
`tabix` on the call output. -/
def Call.run (env : CallEnv) (c : Call) : Outcome Unit :=
  match (if c.bam_list then get_files_from_list env.readToString c
         else .ok c) with
  | .err e => .err e
  | .panicked => .panicked
  | .ok c1 =>
    match run_checks env.pathExists env.hasRG c1 with
    | .error e => .err e
    | .ok _ =>
      match set_strings c1 with
      | none => .panicked
      | some c2 =>
        match set_region env.bamHeader c2 with
        | .err e => .err e
        | .panicked => .panicked
        | .ok c3 =>
          let c4 := set_mity_cmd c3
          match run_freebayes env.exec c4 with
          | .error e => .err e
          | .ok _ =>
            if c4.normalise then .ok ()
            else
              match tabix env.exec c4.call_vcf_path with
              | .error e => .err e
              | .ok _ => .ok ()

/-- **C2 counterexample**: with both supplied files "A" and "B" missing on
disk (existence check constantly false) and a prefix supplied,
`Call::run_checks` fails naming only "A" — the first missing file — not
both missing files. -/
theorem run_checks_missing_counterexample :
    run_checks (fun _ => false) (fun _ => true)
      (Call.new false ["A", "B"] "ref.fa" none (some "p") none none none
        none none false "out" none false false)
      = .error (.missingFile "A") ∧
    CallError.namedFiles (.missingFile "A") ≠ ["A", "B"] :=
  ⟨rfl, by decide⟩

/-- **C2 (amended)** When one or more supplied alignment files do not
exist on disk, `Call::run_checks` fails with an error naming only the
FIRST missing file in supplied order — validation is fail-fast on missing
files, with no aggregation. -/
theorem run_checks_fails_on_first_missing
    (pathExists hasRG : String → Bool) (c : Call) (f : String)
    (hpre : ¬ (1 < c.files.length ∧ c.pfx = none))
    (hgen : ¬ (c.normalise = true ∧ c.genome = none))
    (hfind : c.files.find? (fun file => !pathExists file) = some f) :
    run_checks pathExists hasRG c = .error (.missingFile f) ∧
    CallError.namedFiles (.missingFile f) = [f] := by
  constructor
  · simp only [run_checks]
    rw [if_neg hpre, if_neg hgen, hfind]
  · rfl

/-- **C2 witness**: files "A" and "B", both missing; the check fails
naming exactly "A". -/
theorem run_checks_fails_on_first_missing_witness :
    run_checks (fun _ => false) (fun _ => true)
      (Call.new false ["A", "B"] "ref.fa" none (some "q") none none none
        none none false "out" none false false)
      = .error (.missingFile "A") ∧
    CallError.namedFiles (.missingFile "A") = ["A"] :=
  run_checks_fails_on_first_missing (fun _ => false) (fun _ => true)
    (Call.new false ["A", "B"] "ref.fa" none (some "q") none none none
      none none false "out" none false false)
    "A" (by decide) (by decide) (by rfl)

/-- **C7** When every supplied alignment file exists but several lack a
read-group declaration, `Call::run_checks` fails with a single error
carrying the full list of offending files: every file lacking a read
group is named. -/
theorem run_checks_aggregates_missing_rg
    (pathExists hasRG : String → Bool) (c : Call)
    (hpre : ¬ (1 < c.files.length ∧ c.pfx = none))
    (hgen : ¬ (c.normalise = true ∧ c.genome = none))
    (hex : ∀ f ∈ c.files, pathExists f = true)
    (hbad : c.files.filter (fun file => !hasRG file) ≠ []) :
    run_checks pathExists hasRG c
      = .error (.missingRG (c.files.filter (fun file => !hasRG file))) ∧
    ∀ f ∈ c.files, hasRG f = false →
      f ∈ CallError.namedFiles
        (.missingRG (c.files.filter (fun file => !hasRG file))) := by
  have hfind : c.files.find? (fun file => !pathExists file) = none := by
    rw [List.find?_eq_none]
    intro x hx
    simp [hex x hx]
  constructor
  · simp only [run_checks, hfind]
    rw [if_neg hpre, if_neg hgen]
    rw [if_pos (fun h0 => hbad (List.length_eq_zero.mp h0))]
  · intro f hf hrg
    simp only [CallError.namedFiles, List.mem_filter]
    exact ⟨hf, by simp [hrg]⟩

/-- **C7 witness**: files A, B, C all exist; A and C lack read groups;
the single error names exactly [A, C]. -/
theorem run_checks_aggregates_missing_rg_witness :
    run_checks (fun _ => true) (fun file => file == "B")
      (Call.new false ["A", "B", "C"] "ref.fa" none (some "trio") none
        none none none none false "out" none false false)
      = .error (.missingRG ((["A", "B", "C"] : List String).filter
          (fun file => !(file == "B")))) ∧
    (["A", "B", "C"] : List String).filter (fun file => !(file == "B"))
      = ["A", "C"] :=
  ⟨(run_checks_aggregates_missing_rg (fun _ => true) (fun file => file == "B")
      (Call.new false ["A", "B", "C"] "ref.fa" none (some "trio") none
        none none none none false "out" none false false)
      (by decide) (by decide) (by intro f hf; rfl) (by decide)).1,
    by decide⟩

/-- **C3 counterexample**: in an execution environment where the tabix
command exits with status 1 (non-zero), `tabix` nevertheless returns
success — the exit status of the separate indexing stage is not checked
at all. -/
theorem tabix_ignores_exit_status_counterexample :
    (fun _ : String => some 1) (tabix_cmd "out/trio.mity.call.vcf.gz")
      = some 1 ∧
    (1 : Nat) ≠ 0 ∧
    tabix (fun _ => some 1) "out/trio.mity.call.vcf.gz" = .ok () :=
  ⟨rfl, by decide, rfl⟩

/-- **C3 (amended)** The variant-calling, header-rewriting and
compression stages run as ONE combined shell pipeline whose single
combined exit status is checked once by `Call::run_freebayes` (success
exactly when that one code is 0); the separate indexing stage's exit
status is never checked — whenever the tabix process spawns at all,
`tabix` returns success regardless of its exit code. -/
theorem pipeline_status_checking (exec : String → Option Nat) (c : Call)
    (file : String) (code tcode : Nat)
    (hf : exec (freebayes_cmd c) = some code)
    (ht : exec (tabix_cmd file) = some tcode) :
    (run_freebayes exec c = .ok () ↔ code = 0) ∧
    tabix exec file = .ok () := by
  constructor
  · simp only [run_freebayes, hf]
    by_cases h0 : code = 0 <;> simp [h0]
  · simp [tabix, ht]

/-- **C3 witness**: an environment where every command exits with status
7: the combined pipeline is reported failed (7 ≠ 0), and tabix still
reports success. -/
theorem pipeline_status_checking_witness :
    (fun _ : String => some 7) (freebayes_cmd (Call.new false ["a.bam"]
      "ref.fa" none (some "p") none none none none none false "out"
      none false false)) = some 7 ∧
    ((run_freebayes (fun _ => some 7) (Call.new false ["a.bam"] "ref.fa"
        none (some "p") none none none none none false "out" none false
        false) = .ok ()) ↔ (7 : Nat) = 0) ∧
    tabix (fun _ => some 7) "out/p.mity.call.vcf.gz" = .ok () :=
  ⟨rfl,
    (pipeline_status_checking (fun _ => some 7)
      (Call.new false ["a.bam"] "ref.fa" none (some "p") none none none
        none none false "out" none false false)
      "out/p.mity.call.vcf.gz" 7 7 rfl rfl).1,
    (pipeline_status_checking (fun _ => some 7)
      (Call.new false ["a.bam"] "ref.fa" none (some "p") none none none
        none none false "out" none false false)
      "out/p.mity.call.vcf.gz" 7 7 rfl rfl).2⟩

lemma rustLines_empty : rustLines "" = [] := rfl

lemma run_checks_empty_files (pathExists hasRG : String → Bool) (c : Call)
    (hgen : ¬ (c.normalise = true ∧ c.genome = none)) :
    run_checks pathExists hasRG { c with files := [] } = .ok () := by
  simp only [run_checks]
  rw [if_neg (by simp), if_neg (by simpa using hgen)]
  rfl

lemma set_strings_empty_none (c : Call) (hpfx : c.pfx = none) :
    set_strings { c with files := [] } = none := by
  simp [set_strings, hpfx]

lemma set_strings_keeps_files_region {c c2 : Call}
    (h : set_strings c = some c2) :
    c2.files = c.files ∧ c2.region = c.region := by
  simp only [set_strings] at h
  rcases hm : (match c.pfx with
               | some pr => some pr
               | none => (c.files[0]?).map make_pfx) with _ | pr
  · rw [hm] at h
    simp at h
  · rw [hm] at h
    simp only [Option.some.injEq] at h
    subst h
    exact ⟨rfl, rfl⟩

/-- **C10** When list-mode is set, the single supplied list file reads as
the empty string (zero lines), the genome requirement is met, and the
prefix or the region still needs deriving, `Call::run` does not return an
error: `run_checks` accepts the empty expanded file list, and the
prefix/region derivation indexes the first element of the empty vector —
an out-of-bounds panic. -/
theorem empty_bam_list_panics (env : CallEnv) (c : Call) (lf : String)
    (hlist : c.bam_list = true)
    (hfiles : c.files = [lf])
    (hread : env.readToString lf = some "")
    (hgen : ¬ (c.normalise = true ∧ c.genome = none))
    (hpg : c.pfx = none ∨ c.region = none) :
    Call.run env c = .panicked ∧
    run_checks env.pathExists env.hasRG { c with files := [] } = .ok () := by
  refine ⟨?_, run_checks_empty_files env.pathExists env.hasRG c hgen⟩
  have hexp : get_files_from_list env.readToString c
      = .ok { c with files := [] } := by
    simp only [get_files_from_list, hfiles]
    rw [if_neg (by simp)]
    simp [hread, rustLines_empty]
  have hchecks := run_checks_empty_files env.pathExists env.hasRG c hgen
  simp only [Call.run]
  rw [hlist, if_pos rfl]
  simp only [hexp, hchecks]
  rcases hpg with hpfx | hreg
  · rw [set_strings_empty_none c hpfx]
  · rcases hss : set_strings { c with files := [] } with _ | c2
    · rfl
    · obtain ⟨hf2, hr2⟩ := set_strings_keeps_files_region hss
      simp only at hf2 hr2
      have hr : c2.region = none := by rw [hr2]; exact hreg
      have hsr : set_region env.bamHeader c2 = .panicked := by
        simp [set_region, hr, hf2]
      simp only [hsr]

/-- **C10 witness**: list-mode with list file "list.txt" reading as
empty, no explicit prefix or region — the run panics while validation
accepted the empty sample set. -/
theorem empty_bam_list_panics_witness :
    Call.run
      ⟨fun _ => some "", fun _ => true, fun _ => true, fun _ => none,
        fun _ => none⟩
      (Call.new false ["list.txt"] "ref.fa" none none none none none
        none none false "out" none true false) = .panicked ∧
    run_checks (fun _ => true) (fun _ => true)
      { (Call.new false ["list.txt"] "ref.fa" none none none none none
          none none false "out" none true false) with files := [] }
      = .ok () :=
  empty_bam_list_panics
    ⟨fun _ => some "", fun _ => true, fun _ => true, fun _ => none,
      fun _ => none⟩
    (Call.new false ["list.txt"] "ref.fa" none none none none none
      none none false "out" none true false)
    "list.txt" rfl rfl rfl (by decide) (Or.inl rfl)

/-- The `Normalise` struct of `src/src/normalise.rs` (the Rust `prefix`
field is modelled as `pfx`; the `f32` field `p` is carried in rendered
form; `PathBuf` paths are strings). -/
structure Normalise where
  debug : Bool
  vcf : String
  reference_fasta : String
  genome : String
  output_dir : String
  pfx : Option String
  allsamples : Bool
  keep : Bool
  p : String
  bcftools_norm_path : String
  filtered_vcf_path : String
  normalised_vcf_path : String
deriving DecidableEq

/-- `Normalise::make_prefix`: the last `/`-separated component of the vcf
path (`parts.last().unwrap_or(&"default")`) — the full file name,
extensions included. -/
def Normalise.make_pfx (vcf : String) : String :=
  (vcf.splitOn "/").getLastD "default"

/-- `Normalise::set_paths`: default the prefix via `Normalise::make_pfx`,
then derive the three paths.  `PathBuf::from(dir).join(name)` is modelled
as `dir ++ "/" ++ name` (directory without a trailing separator); the
filtered path replaces `.vcf.gz` by `.filtered.vcf` in the input path. -/
def Normalise.set_paths (n : Normalise) : Normalise :=
  let pr := match n.pfx with
            | some q => q
            | none => Normalise.make_pfx n.vcf
  { n with
    pfx := some pr,
    bcftools_norm_path :=
      n.output_dir ++ "/" ++ pr ++ ".bcftools.norm.vcf.gz",
    filtered_vcf_path := rustReplace n.vcf ".vcf.gz" ".filtered.vcf",
    normalised_vcf_path := n.output_dir ++ "/" ++ pr ++ ".normalise.vcf.gz" }

/-- `Normalise::new`: store the configuration and compute the paths. -/
def Normalise.new (debug : Bool)
    (vcf reference_fasta genome output_dir : String) (pfx : Option String)
    (allsamples keep : Bool) (p : String) : Normalise :=
  Normalise.set_paths
    { debug := debug, vcf := vcf, reference_fasta := reference_fasta,
      genome := genome, output_dir := output_dir, pfx := pfx,
      allsamples := allsamples, keep := keep, p := p,
      bcftools_norm_path := "", filtered_vcf_path := "",
      normalised_vcf_path := "" }

/-- Mark a path as existing (Rust `File::create`). -/
def createFile (p : String) (fs : String → Bool) : String → Bool :=
  fun q => if q = p then true else fs q

/-- Mark a path as absent (Rust `remove_file`). -/
def removeFile (p : String) (fs : String → Bool) : String → Bool :=
  fun q => if q = p then false else fs q

/-- `Normalise::run_bcftools_norm` (the source simulates the bcftools
invocation by writing a placeholder file): creates
`bcftools_norm_path`. -/
def Normalise.run_bcftools_norm (n : Normalise) (fs : String → Bool) :
    String → Bool :=
  createFile n.bcftools_norm_path fs

/-- `Normalise::run_filtering` (a placeholder write in the source):
creates `filtered_vcf_path`. -/
def Normalise.run_filtering (n : Normalise) (fs : String → Bool) :
    String → Bool :=
  createFile n.filtered_vcf_path fs

/-- `Normalise::remove_intermediate_files`: unless `keep`, remove the
filtered scratch file and then the bcftools-norm scratch file (each
removal guarded by an existence check in the source, a no-op here when
the file is absent).  The raw input vcf is never touched. -/
def Normalise.remove_intermediate_files (n : Normalise)
    (fs : String → Bool) : String → Bool :=
  if n.keep then fs
  else removeFile n.bcftools_norm_path (removeFile n.filtered_vcf_path fs)

/-- `Normalise::run` as a filesystem transformer: `run_bcftools_norm`,
`run_filtering` (the gsort stage is commented out in the source), then
`remove_intermediate_files`. -/
def Normalise.run (n : Normalise) (fs : String → Bool) : String → Bool :=
  n.remove_intermediate_files (n.run_filtering (n.run_bcftools_norm fs))

/-- **C8 counterexample**: `Normalise::set_paths` with output directory
"out" and explicit prefix "trio" derives the normalised output path
"out/trio.normalise.vcf.gz" — missing the claimed ".mity." segment. -/
theorem normalise_output_path_counterexample :
    (Normalise.new false "out/trio.mity.call.vcf.gz" "ref.fa" "g.genome"
      "out" (some "trio") false false "0.002").normalised_vcf_path
      = "out/trio.normalise.vcf.gz" ∧
    "out/trio.normalise.vcf.gz" ≠ "out/trio.mity.normalise.vcf.gz" :=
  ⟨rfl, by decide⟩

/-- **C8 (amended)** For every output directory and prefix,
`Call::set_strings` derives the raw call output path
`<dir>/<prefix>.mity.call.vcf.gz` and the orchestrator-side normalised
path `<dir>/<prefix>.mity.normalise.vcf.gz`, but the normalisation
engine's own `Normalise::set_paths` derives its output as
`<dir>/<prefix>.normalise.vcf.gz`, without the `.mity.` segment. -/
theorem derived_output_paths (c : Call) (n : Normalise) (dir pr : String)
    (hc : c.pfx = some pr) (hcd : c.output_dir = dir)
    (hn : n.pfx = some pr) (hnd : n.output_dir = dir) :
    ∃ c2, set_strings c = some c2 ∧
      c2.call_vcf_path = dir ++ "/" ++ pr ++ ".mity.call.vcf.gz" ∧
      c2.normalised_vcf_path
        = dir ++ "/" ++ pr ++ ".mity.normalise.vcf.gz" ∧
      (Normalise.set_paths n).normalised_vcf_path
        = dir ++ "/" ++ pr ++ ".normalise.vcf.gz" := by
  have hss : set_strings c = some { c with
      pfx := some pr,
      file_string := file_string c.files,
      normalised_vcf_path :=
        c.output_dir ++ "/" ++ pr ++ ".mity.normalise.vcf.gz",
      call_vcf_path :=
        c.output_dir ++ "/" ++ pr ++ ".mity.call.vcf.gz" } := by
    simp [set_strings, hc]
  refine ⟨_, hss, ?_, ?_, ?_⟩
  · simp [hcd]
  · simp [hcd]
  · simp [Normalise.set_paths, hn, hnd]

/-- **C8 witness**: with directory "out" and prefix "trio", the derived
paths are "out/trio.mity.call.vcf.gz", "out/trio.mity.normalise.vcf.gz"
and — for the engine — "out/trio.normalise.vcf.gz". -/
theorem derived_output_paths_witness :
    ∃ c2, set_strings (Call.new false ["a.bam", "b.bam"] "ref.fa" none
        (some "trio") none none none none none false "out" none false
        false) = some c2 ∧
      c2.call_vcf_path = "out" ++ "/" ++ "trio" ++ ".mity.call.vcf.gz" ∧
      c2.normalised_vcf_path
        = "out" ++ "/" ++ "trio" ++ ".mity.normalise.vcf.gz" ∧
      (Normalise.set_paths (Normalise.new false "trio.mity.call.vcf.gz"
          "ref.fa" "g.genome" "out" (some "trio") false false
          "0.002")).normalised_vcf_path
        = "out" ++ "/" ++ "trio" ++ ".normalise.vcf.gz" :=
  derived_output_paths
    (Call.new false ["a.bam", "b.bam"] "ref.fa" none (some "trio") none
      none none none none false "out" none false false)
    (Normalise.new false "trio.mity.call.vcf.gz" "ref.fa" "g.genome"
      "out" (some "trio") false false "0.002")
    "out" "trio" rfl rfl rfl rfl

/-- **C9 counterexample**: normalising "out/trio.mity.call.vcf.gz" with
keep-intermediates off leaves the raw un-normalised call file in place
after the run — it is not removed, contrary to the claim. -/
theorem raw_call_file_not_removed_counterexample :
    (Normalise.new false "out/trio.mity.call.vcf.gz" "ref.fa" "g.genome"
      "out" (some "trio") false false "0.002").keep = false ∧
    Normalise.run
      (Normalise.new false "out/trio.mity.call.vcf.gz" "ref.fa"
        "g.genome" "out" (some "trio") false false "0.002")
      (fun q => q == "out/trio.mity.call.vcf.gz")
      "out/trio.mity.call.vcf.gz" = true :=
  ⟨rfl, by decide⟩

/-- **C9 (amended)** After `Normalise::run`, the raw un-normalised call
file (the input vcf) is never removed — its presence is exactly what it
was before — while the two scratch files actually managed (the
bcftools-norm decomposition file and the filtering scratch file) are
removed when keep-intermediates is off and present when it is on. -/
theorem intermediate_removal (n : Normalise) (fs : String → Bool)
    (h1 : n.filtered_vcf_path ≠ n.vcf)
    (h2 : n.bcftools_norm_path ≠ n.vcf) :
    Normalise.run n fs n.vcf = fs n.vcf ∧
    (n.keep = false →
      Normalise.run n fs n.filtered_vcf_path = false ∧
      Normalise.run n fs n.bcftools_norm_path = false) ∧
    (n.keep = true →
      Normalise.run n fs n.filtered_vcf_path = true ∧
      Normalise.run n fs n.bcftools_norm_path = true) := by
  unfold Normalise.run Normalise.remove_intermediate_files
    Normalise.run_filtering Normalise.run_bcftools_norm createFile
    removeFile
  refine ⟨?_, ?_, ?_⟩
  · by_cases hk : n.keep = true
    · simp [hk, Ne.symm h1, Ne.symm h2]
    · simp only [Bool.not_eq_true] at hk
      simp [hk, Ne.symm h1, Ne.symm h2]
  · intro hk
    constructor <;> simp [hk]
  · intro hk
    constructor <;> simp [hk]

/-- **C9 witness**: a concrete run with keep off — the raw call file's
presence is unchanged (it stays on disk). -/
theorem intermediate_removal_witness :
    (Normalise.new false "out/trio.mity.call.vcf.gz" "ref.fa" "g.genome"
      "out" (some "trio") false false "0.002").filtered_vcf_path
      ≠ "out/trio.mity.call.vcf.gz" ∧
    Normalise.run
      (Normalise.new false "out/trio.mity.call.vcf.gz" "ref.fa"
        "g.genome" "out" (some "trio") false false "0.002")
      (fun q => q == "out/trio.mity.call.vcf.gz")
      (Normalise.new false "out/trio.mity.call.vcf.gz" "ref.fa"
        "g.genome" "out" (some "trio") false false "0.002").vcf
      = (fun q : String => q == "out/trio.mity.call.vcf.gz")
          (Normalise.new false "out/trio.mity.call.vcf.gz" "ref.fa"
            "g.genome" "out" (some "trio") false false "0.002").vcf :=
  ⟨by decide,
    (intermediate_removal
      (Normalise.new false "out/trio.mity.call.vcf.gz" "ref.fa"
        "g.genome" "out" (some "trio") false false "0.002")
      (fun q => q == "out/trio.mity.call.vcf.gz")
      (by decide) (by decide)).1⟩

/-- Minimum depth `MIN_DP` of `src/src/normalise.rs`. -/
def MIN_DP : Int := 15

/-- Minimum reference mapping quality `MIN_MQMR` of
`src/src/normalise.rs` (an `f64` in the source, modelled rationally). -/
def MIN_MQMR : ℚ := 30

/-- Minimum alternate base quality `MIN_AQR` of `src/src/normalise.rs`. -/
def MIN_AQR : ℚ := 20

/-- Strand-bias lower bound `SB_RANGE_LO` of `src/src/normalise.rs`. -/
def SB_RANGE_LO : ℚ := 1/10

/-- Strand-bias upper bound `SB_RANGE_HI` of `src/src/normalise.rs`. -/
def SB_RANGE_HI : ℚ := 9/10

/-- The fixed position blacklist `BLACKLIST` of `src/src/normalise.rs`:
positions 302-318 and 3105-3107. -/
def BLACKLIST : List Int :=
  [302, 303, 304, 305, 306, 307, 308, 309, 310, 311, 312, 313, 314, 315,
   316, 317, 318, 3105, 3106, 3107]

/-- Modelled from the spec: per-sample evidence of a decomposed variant
record (§3 data model).  `Normalise::run_filtering` is an unimplemented
placeholder in the source, so the filtering rules are modelled from spec
§4.5 using the constant tables the source does define. -/
structure SampleMetrics where
  dp : Int
  mqmr : ℚ
  aqr : ℚ
  sbr : ℚ
deriving DecidableEq

/-- Modelled from the spec: a decomposed variant record with its
per-sample evidence (§3 `VariantRecord`, after decomposition). -/
structure VariantRecord where
  contig : String
  pos : Int
  samples : List SampleMetrics
deriving DecidableEq

/-- Modelled from the spec (§4.5 item 3): the ordered failure reasons of
the fixed per-sample quality rules — depth, reference mapping quality,
alternate base quality, strand-bias window, and position blacklist. -/
def sampleFailures (pos : Int) (s : SampleMetrics) : List String :=
  (if s.dp < MIN_DP then ["depth"] else [])
    ++ (if s.mqmr < MIN_MQMR then ["ref_mapping_quality"] else [])
    ++ (if s.aqr < MIN_AQR then ["alt_base_quality"] else [])
    ++ (if s.sbr < SB_RANGE_LO ∨ SB_RANGE_HI < s.sbr then ["strand_bias"]
        else [])
    ++ (if pos ∈ BLACKLIST then ["blacklist"] else [])

/-- Modelled from the spec: a sample genotype passes when no rule
fails. -/
def samplePasses (pos : Int) (s : SampleMetrics) : Bool :=
  (sampleFailures pos s).isEmpty

/-- Modelled from the spec (§4.5 items 3-4): blacklist membership alone
forces FAIL; otherwise, with all-samples-required every sample must pass,
else one passing sample suffices. -/
def sitePasses (allsamples : Bool) (r : VariantRecord) : Bool :=
  if r.pos ∈ BLACKLIST then false
  else if allsamples then r.samples.all (samplePasses r.pos)
  else r.samples.any (samplePasses r.pos)

/-- Modelled from the spec (§3 `FilterDecision`): the PASS/FAIL boolean
together with the failed-rule names attached to the record. -/
structure FilterDecision where
  pass : Bool
  failed_rules : List String
deriving DecidableEq

/-- Modelled from the spec: the FILTER decision of a decomposed record —
PASS iff the site-level aggregation passes, carrying the deduplicated
failure reasons across samples. -/
def FILTER (allsamples : Bool) (r : VariantRecord) : FilterDecision :=
  { pass := sitePasses allsamples r,
    failed_rules := ((r.samples.map (sampleFailures r.pos)).flatten).dedup }

/-- **C4** For every variant record whose position lies in the fixed
blacklist (302-318, 3105-3107), the FILTER decision after filtering is
never PASS, whatever the depth, mapping-quality, base-quality and
strand-bias values of its samples and whichever sample-aggregation mode
is in force. -/
theorem blacklisted_position_never_pass (allsamples : Bool)
    (r : VariantRecord) (h : r.pos ∈ BLACKLIST) :
    (FILTER allsamples r).pass = false := by
  simp [FILTER, sitePasses, h]

/-- **C4 witness**: position 302 with a single sample of excellent
metrics (depth 100, mapping quality 60, base quality 60, strand bias 1/2)
still does not PASS. -/
theorem blacklisted_position_never_pass_witness :
    ((302 : Int) ∈ BLACKLIST) ∧
    (FILTER false
      { contig := "MT", pos := 302,
        samples := [{ dp := 100, mqmr := 60, aqr := 60, sbr := 1/2 }] }).pass
      = false :=
  ⟨by decide,
    blacklisted_position_never_pass false
      { contig := "MT", pos := 302,
        samples := [{ dp := 100, mqmr := 60, aqr := 60, sbr := 1/2 }] }
      (by decide)⟩
